import Mathlib

/-!
# Verification of `filtro.py` (Ejecutable_Cupido)

A shallow embedding of the directory-filter utility `src/filtro.py`:
calendar dates (Python `datetime.date`), the date parser
`validar_fecha`, the traversal `buscar_carpetas` over an abstract
filesystem, the filter dispatcher `filtrar_por_opcion`, the result
display / report functions, and the yes/no prompts.  Strings are
modelled as Lean `String` / `List Char` with ASCII digit and case
semantics.
-/

namespace Filtro

/-- A Python `datetime.date`: proleptic Gregorian calendar date.
`datetime.date` objects always satisfy `ValidFecha` (the constructor
raises `ValueError` otherwise). -/
structure Fecha where
  year : Nat
  month : Nat
  day : Nat
deriving DecidableEq, Repr

/-- Gregorian leap year, as in Python's `calendar.isleap` /
`datetime._is_leap`. -/
def esBisiesto (y : Nat) : Bool :=
  y % 4 == 0 && (y % 100 != 0 || y % 400 == 0)

/-- Days in a month of a given year (`datetime._days_in_month`). -/
def diasEnMes (y m : Nat) : Nat :=
  if m == 2 then (if esBisiesto y then 29 else 28)
  else if m == 4 || m == 6 || m == 9 || m == 11 then 30
  else 31

/-- The dates accepted by the `datetime.date` constructor:
`MINYEAR = 1 ≤ year ≤ MAXYEAR = 9999`, `1 ≤ month ≤ 12`,
`1 ≤ day ≤ days_in_month`. -/
def ValidFecha (y m d : Nat) : Bool :=
  1 ≤ y && y ≤ 9999 && 1 ≤ m && m ≤ 12 && 1 ≤ d && d ≤ diasEnMes y m

/-- Python `date` comparison is lexicographic on `(year, month, day)`
(CPython compares the packed byte representation). Strict order. -/
def Fecha.lt (a b : Fecha) : Bool :=
  a.year < b.year ||
    (a.year == b.year &&
      (a.month < b.month || (a.month == b.month && a.day < b.day)))

/-- Non-strict date order, `a <= b` on Python `date`s. -/
def Fecha.le (a b : Fecha) : Bool :=
  a.year < b.year ||
    (a.year == b.year &&
      (a.month < b.month || (a.month == b.month && a.day ≤ b.day)))

/-- Days in the years before year `y` (`datetime._days_before_year`):
`365*(y-1) + (y-1)/4 - (y-1)/100 + (y-1)/400`. -/
def diasAntesDeAnio (y : Nat) : Nat :=
  365 * (y - 1) + (y - 1) / 4 + (y - 1) / 400 - (y - 1) / 100

/-- Cumulative days before month `m` in year `y`
(`datetime._days_before_month`). -/
def diasAntesDeMes (y m : Nat) : Nat :=
  let base :=
    match m with
    | 1 => 0 | 2 => 31 | 3 => 59 | 4 => 90 | 5 => 120 | 6 => 151
    | 7 => 181 | 8 => 212 | 9 => 243 | 10 => 273 | 11 => 304 | _ => 334
  if 2 < m && esBisiesto y then base + 1 else base

/-- `date.toordinal()`: day 1 is 01/01/0001. -/
def Fecha.toOrdinal (f : Fecha) : Nat :=
  diasAntesDeAnio f.year + diasAntesDeMes f.year f.month + f.day

/-- Helper for `ofOrdinal`: find the month containing day-of-year `n`
(0-based), scanning months `m, m+1, ...`. -/
def buscarMes (y : Nat) (n : Nat) : Nat → Nat → Nat
  | 0, m => m
  | _, 12 => 12
  | fuel + 1, m =>
    if n < diasAntesDeMes y (m + 1) then m else buscarMes y n fuel (m + 1)

/-- `date.fromordinal` (`datetime._ord2ymd`): inverse of `toOrdinal`
by the 400/100/4/1-year cycle decomposition. -/
def Fecha.ofOrdinal (o : Nat) : Fecha :=
  let n := o - 1
  let n400 := n / 146097
  let n := n % 146097
  let n100 := n / 36524
  let n := n % 36524
  let n4 := n / 1461
  let n := n % 1461
  let n1 := n / 365
  let n := n % 365
  let year := n400 * 400 + n100 * 100 + n4 * 4 + n1 + 1
  if n1 == 4 || n100 == 4 then
    ⟨year - 1, 12, 31⟩
  else
    let mes := buscarMes year n 11 1
    ⟨year, mes, n - diasAntesDeMes year mes + 1⟩

/-- `today - timedelta(days = n)` for an in-range result (out-of-range
subtraction raises `OverflowError` in Python and is excluded by
hypothesis where used). -/
def Fecha.restarDias (f : Fecha) (n : Nat) : Fecha :=
  Fecha.ofOrdinal (f.toOrdinal - n)

/-- The first code points (digit value 0) of the 66 runs of ten
consecutive Unicode decimal digits (category Nd; Unicode 14.0, as in
CPython 3.11's `unicodedata`): ASCII `0-9` (48), Arabic-Indic (1632),
Extended Arabic-Indic (1776), Nko (1984), the Brahmic scripts,
Fullwidth (65296), …, the five mathematical digit styles
(120782-120822), and the remaining supplementary-plane scripts.
Every Nd character sits in exactly one range `b ≤ c < b + 10`, with
decimal digit value `c - b`. -/
def basesDigitos : List Nat :=
  [48, 1632, 1776, 1984, 2406, 2534, 2662, 2790, 2918, 3046, 3174,
   3302, 3430, 3558, 3664, 3792, 3872, 4160, 4240, 6112, 6160, 6470,
   6608, 6784, 6800, 6992, 7088, 7232, 7248, 42528, 43216, 43264,
   43472, 43504, 43600, 44016, 65296, 66720, 68912, 69734, 69872,
   69942, 70096, 70384, 70736, 70864, 71248, 71360, 71472, 71904,
   72016, 72784, 73040, 73120, 92768, 92864, 93008, 120782, 120792,
   120802, 120812, 120822, 123200, 123632, 125264, 130032]

/-- The characters matched by the regex class `\d`: the pattern is a
`str` pattern without `re.ASCII`, so `\d` matches every Unicode
decimal digit (category Nd), not just ASCII.  `int()` likewise
converts exactly these characters, each by its decimal value. -/
def esDigito (c : Char) : Bool :=
  (basesDigitos.find? fun b => b ≤ c.toNat && c.toNat < b + 10).isSome

/-- Numeric value of a Unicode decimal digit, as `int()` uses it:
its offset in its run of ten. -/
def valorDigito (c : Char) : Nat :=
  match basesDigitos.find? fun b => b ≤ c.toNat && c.toNat < b + 10 with
  | some b => c.toNat - b
  | none => 0

/-- Strip a single trailing newline: `re` semantics of the `$` anchor,
which matches at the end of the string or just before a final
newline. -/
def sinSaltoFinal (s : List Char) : List Char :=
  match s.reverse with
  | c :: resto => if c == '\n' then resto.reverse else s
  | [] => s

/-- Structural match of `^(\d{2})/(\d{2})/(\d{4})$` against a string
with no trailing newline: exactly `dd/mm/yyyy`, returning the three
captured numbers `(dia, mes, anio)`. -/
def patronFecha : List Char → Option (Nat × Nat × Nat)
  | [d1, d2, '/', m1, m2, '/', a1, a2, a3, a4] =>
    if esDigito d1 && esDigito d2 && esDigito m1 && esDigito m2 &&
        esDigito a1 && esDigito a2 && esDigito a3 && esDigito a4 then
      some (valorDigito d1 * 10 + valorDigito d2,
            valorDigito m1 * 10 + valorDigito m2,
            ((valorDigito a1 * 10 + valorDigito a2) * 10 + valorDigito a3)
              * 10 + valorDigito a4)
    else none
  | _ => none

/-- The strict-pattern parse shared by source and spec reading: exactly
ten characters `dd/mm/yyyy`, then the `date` constructor.  The source's
`validar_fecha` applies it after the `$` anchor's newline tolerance. -/
def fechaEstricta (s : List Char) : Option Fecha :=
  match patronFecha s with
  | none => none
  | some (dia, mes, anio) =>
    if ValidFecha anio mes dia then some ⟨anio, mes, dia⟩ else none

/-- `FiltrarCarpetas.validar_fecha`: match the anchored regex
(`$` admits one trailing newline), convert the groups with `int`,
and build a `date`, returning `None` when the constructor raises. -/
def validar_fecha (s : List Char) : Option Fecha :=
  fechaEstricta (sinSaltoFinal s)

/-- ASCII decimal digit: the digits of the spec's strict pattern and
of all renderings this program itself produces. -/
def esDigitoAscii (c : Char) : Bool :=
  ['0', '1', '2', '3', '4', '5', '6', '7', '8', '9'].contains c

/-- Spec reading of "matches the strict two-digit day, two-digit month,
four-digit year dd/mm/yyyy pattern": exactly ten characters, ASCII
digits at the digit positions and `/` separators at positions 2 and
5. -/
def cumplePatronEstricto (s : List Char) : Bool :=
  s.length == 10 &&
  esDigitoAscii (s.getD 0 ' ') && esDigitoAscii (s.getD 1 ' ') &&
  s.getD 2 ' ' == '/' &&
  esDigitoAscii (s.getD 3 ' ') && esDigitoAscii (s.getD 4 ' ') &&
  s.getD 5 ' ' == '/' &&
  esDigitoAscii (s.getD 6 ' ') && esDigitoAscii (s.getD 7 ' ') &&
  esDigitoAscii (s.getD 8 ' ') && esDigitoAscii (s.getD 9 ' ')

/-! ## Rendering (`strftime` and f-strings) -/

/-- `%02d`: two zero-padded decimal digits (all days and months fit). -/
def dosDigitos (n : Nat) : List Char :=
  [Nat.digitChar (n / 10), Nat.digitChar (n % 10)]

/-- Four zero-padded decimal digits (years up to 9999). -/
def cuatroDigitos (n : Nat) : List Char :=
  [Nat.digitChar (n / 1000 % 10), Nat.digitChar (n / 100 % 10),
   Nat.digitChar (n / 10 % 10), Nat.digitChar (n % 10)]

/-- Fuelled helper for `digitosNat`; any fuel above the digit count
gives the rendering. -/
def digitosNatAux : Nat → Nat → List Char
  | 0, _ => []
  | fuel + 1, n =>
    if n < 10 then [Nat.digitChar n]
    else digitosNatAux fuel (n / 10) ++ [Nat.digitChar (n % 10)]

/-- Minimal decimal rendering of a natural number (C `strftime`'s `%Y`
on glibc prints the year without padding; it only differs from
`cuatroDigitos` below year 1000). -/
def digitosNat (n : Nat) : List Char :=
  digitosNatAux (n + 1) n

/-- The unique ten-character strict `dd/mm/yyyy` rendering of a date. -/
def renderEstricto (f : Fecha) : List Char :=
  dosDigitos f.day ++ '/' :: dosDigitos f.month ++ '/' :: cuatroDigitos f.year

/-- `strftime("%d/%m/%Y")` as used for display and the report. -/
def renderFecha (f : Fecha) : List Char :=
  dosDigitos f.day ++ '/' :: dosDigitos f.month ++ '/' :: digitosNat f.year

/-- `t` denotes the date `f` in an accepted ten-character form: two
decimal digits, `/`, two decimal digits, `/`, four decimal digits —
Unicode decimal digits of any script — whose digit values give day,
month and year.  The strict ASCII rendering `renderEstricto f` is one
such form. -/
def RepresentaFecha (t : List Char) (f : Fecha) : Prop :=
  ∃ c1 c2 c3 c4 c5 c6 c7 c8 : Char,
    t = [c1, c2, '/', c3, c4, '/', c5, c6, c7, c8] ∧
    esDigito c1 = true ∧ esDigito c2 = true ∧ esDigito c3 = true ∧
    esDigito c4 = true ∧ esDigito c5 = true ∧ esDigito c6 = true ∧
    esDigito c7 = true ∧ esDigito c8 = true ∧
    f.day = valorDigito c1 * 10 + valorDigito c2 ∧
    f.month = valorDigito c3 * 10 + valorDigito c4 ∧
    f.year = ((valorDigito c5 * 10 + valorDigito c6) * 10 + valorDigito c7)
      * 10 + valorDigito c8

/-! ## Directory entries and the filesystem model -/

/-- One collected record: `{'ruta': ..., 'nombre': ...,
'fecha_modificacion': ...}`.  Paths are lists of components;
`os.path.join(root, name)` appends one component. -/
structure Carpeta where
  ruta : List String
  nombre : String
  fecha_modificacion : Fecha
deriving DecidableEq, Repr

/-- Abstract filesystem node.  For a directory, `legible` is whether
`scandir`/`os.walk` may list it (else `PermissionError`), and `mtime`
is the result of `os.path.getmtime` truncated to a date (`none` when
it raises `OSError`, which `obtener_fecha_modificacion` turns into
`None`). -/
inductive Nodo where
  | archivo (nombre : String)
  | carpeta (nombre : String) (legible : Bool) (mtime : Option Fecha)
      (hijos : List Nodo)
deriving Repr

/-- The record built for one immediate child of a visited directory:
files are discarded (`entry.is_dir()` / the `dirs` list of `os.walk`),
directories are kept when their modification date is readable. -/
def entradaDirecta (ruta : List String) : Nodo → Option Carpeta
  | .archivo _ => none
  | .carpeta n _ m _ => m.map fun f => ⟨ruta ++ [n], n, f⟩

/-- The immediate child-directory records of a visited directory. -/
def nivelDirecto (ruta : List String) (hijos : List Nodo) : List Carpeta :=
  hijos.filterMap (entradaDirecta ruta)

mutual
/-- Records collected by the `os.walk` loop from the subtree of a
directory at path `ruta` with the given listability and children.
`os.walk` is top-down with `onerror=None`: an unlistable directory
yields nothing (the error is swallowed), a listed directory first
contributes all of its child directories, then each child's subtree
in order. -/
def walkRec (ruta : List String) (legible : Bool) (hijos : List Nodo) :
    List Carpeta :=
  if legible then nivelDirecto ruta hijos ++ walkHijos ruta hijos else []

/-- Subtree contributions of each child directory, in `scandir` order. -/
def walkHijos (ruta : List String) : List Nodo → List Carpeta
  | [] => []
  | .archivo _ :: resto => walkHijos ruta resto
  | .carpeta n l _ hijos :: resto =>
    walkRec (ruta ++ [n]) l hijos ++ walkHijos ruta resto
end

/-- `FiltrarCarpetas.buscar_carpetas` on a root directory at path
`ruta` with listability `legible` and children `hijos`.  Returns the
collected records and whether the `PermissionError` handler printed
its abort message.  In recursive mode `os.walk` swallows all listing
errors (`onerror=None`), so no exception reaches the handler; in
shallow mode `os.scandir` on an unlistable root raises before
anything is collected. -/
def buscar_carpetas (ruta : List String) (legible : Bool)
    (hijos : List Nodo) (incluir_subcarpetas : Bool) :
    List Carpeta × Bool :=
  if incluir_subcarpetas then
    (walkRec ruta legible hijos, false)
  else if legible then
    (nivelDirecto ruta hijos, false)
  else
    ([], true)

/-! ## Filtering -/

/-- A filter option together with the parameters the interactive code
gathers for it (reference dates; for option 5, `date.today()` and the
validated day count). -/
inductive Opcion where
  | despues (ref : Fecha)
  | antes (ref : Fecha)
  | en (ref : Fecha)
  | rango (inicio fin : Fecha)
  | ultimos (hoy : Fecha) (dias : Nat)
deriving DecidableEq, Repr

/-- `FiltrarCarpetas.filtrar_por_opcion`: the filtered list, paired
with whether the option-4 start-after-end error message was printed
(that branch returns `[]` before evaluating any entry). -/
def filtrar_por_opcion (carpetas : List Carpeta) :
    Opcion → List Carpeta × Bool
  | .despues ref =>
    (carpetas.filter fun c => Fecha.lt ref c.fecha_modificacion, false)
  | .antes ref =>
    (carpetas.filter fun c => Fecha.lt c.fecha_modificacion ref, false)
  | .en ref =>
    (carpetas.filter fun c => c.fecha_modificacion == ref, false)
  | .rango inicio fin =>
    if Fecha.lt fin inicio then ([], true)
    else
      (carpetas.filter fun c =>
        Fecha.le inicio c.fecha_modificacion &&
          Fecha.le c.fecha_modificacion fin, false)
  | .ultimos hoy dias =>
    (carpetas.filter fun c =>
      Fecha.le (hoy.restarDias dias) c.fecha_modificacion, false)

/-- The option-5 day-count prompt loop over a stream of console
answers (`none` models input `int` cannot parse, which raises
`ValueError`): the first answer that is a positive integer is
accepted, everything before it is rejected with a message and
re-prompted. -/
def leerDias (entradas : List (Option Int)) : Option Int :=
  entradas.findSome? fun e =>
    match e with
    | some k => if 0 < k then some k else none
    | none => none

/-! ## Console answers, display, report and session state -/

/-- `str.lower` on the characters this program compares: ASCII
letters, plus the accented vowel of the affirmative token `sí`. -/
def minuscula (c : Char) : Char :=
  if 'A' ≤ c && c ≤ 'Z' then Char.ofNat (c.toNat + 32)
  else if c == 'Í' then 'í' else c

/-- Whitespace removed by `str.strip`. -/
def esEspacio (c : Char) : Bool :=
  c == ' ' || c == '\t' || c == '\n' || c == '\r' ||
    c == Char.ofNat 11 || c == Char.ofNat 12

/-- `respuesta.lower().strip()`, applied to every yes/no answer. -/
def normalizar (s : List Char) : List Char :=
  (((s.map minuscula).dropWhile esEspacio).reverse.dropWhile
    esEspacio).reverse

/-- The affirmative tokens of the save and continue prompts:
`['s', 'sí', 'si', 'y', 'yes']`. -/
def respuestasAfirmativas : List (List Char) :=
  [['s'], ['s', 'í'], ['s', 'i'], ['y'], ['y', 'e', 's']]

/-- `FiltrarCarpetas.preguntar_incluir_subcarpetas`: recursive unless
the normalized answer is exactly `n` or `no`. -/
def preguntar_incluir_subcarpetas (respuesta : List Char) : Bool :=
  !(normalizar respuesta == ['n']) && !(normalizar respuesta == ['n', 'o'])

/-- Spec reading of the recursion prompt ("yes/no prompt defaulting to
yes" with "the affirmative tokens"): affirmative exactly when the
normalized answer is empty (the default) or one of the affirmative
tokens. -/
def respuestaAfirmativaSpec (respuesta : List Char) : Prop :=
  normalizar respuesta = [] ∨ normalizar respuesta ∈ respuestasAfirmativas

/-- Display of a path (`os.path.join` chain, POSIX separator). -/
def unirRuta (r : List String) : List Char :=
  (String.intercalate "/" r).data

/-- `{i:3d}`: right-aligned in a field of width 3. -/
def numeroAncho3 (i : Nat) : List Char :=
  let d := digitosNat i
  List.replicate (3 - d.length) ' ' ++ d

/-- One listing line, `f"{i:3d}. [{fecha_str}] {carpeta['ruta']}"`. -/
def fmtLinea (i : Nat) (c : Carpeta) : List Char :=
  numeroAncho3 i ++ '.' :: ' ' :: '[' :: renderFecha c.fecha_modificacion
    ++ ']' :: ' ' :: unirRuta c.ruta

/-- `sorted(carpetas, key=lambda x: x['fecha_modificacion'])`: a stable
ascending sort on the modification date (Python's `sorted` is stable,
as is `List.mergeSort`). -/
def ordenarPorFecha (l : List Carpeta) : List Carpeta :=
  l.mergeSort fun a b => Fecha.le a.fecha_modificacion b.fecha_modificacion

/-- The numbered, date-sorted listing printed on screen (lines 205-207)
and written to the report (lines 234-236): `enumerate(..., 1)` numbers
from 1. -/
def lineasListado (carpetas : List Carpeta) : List (List Char) :=
  (ordenarPorFecha carpetas).enum.map fun p => fmtLinea (p.1 + 1) p.2

/-- The per-session state the save step consults:
`self.ruta_busqueda` and `self.carpetas_encontradas`. -/
structure Sesion where
  ruta_busqueda : List String
  carpetas_encontradas : List Carpeta
deriving DecidableEq, Repr

/-- `FiltrarCarpetas.mostrar_resultados`: on an empty filtered list it
prints the "no se encontraron carpetas" message and returns early
(`none`, session unchanged — `self.carpetas_encontradas` keeps its
previous value); otherwise it prints the sorted numbered listing
(`some`) and stores the filtered list in the session. -/
def mostrar_resultados (st : Sesion) (filtradas : List Carpeta) :
    Sesion × Option (List (List Char)) :=
  if filtradas.isEmpty then (st, none)
  else ({ st with carpetas_encontradas := filtradas },
        some (lineasListado filtradas))

/-- `FiltrarCarpetas.guardar_resultados`: first component is whether
the save prompt was shown at all (it returns before asking when
`self.carpetas_encontradas` is empty); second is the numbered listing
written to the report file (`none` when no file is written; the
constant header and timestamp/root/count lines that precede the
listing are elided). -/
def guardar_resultados (st : Sesion) (respuesta : List Char) :
    Bool × Option (List (List Char)) :=
  if st.carpetas_encontradas.isEmpty then (false, none)
  else
    (true,
     if respuestasAfirmativas.contains (normalizar respuesta) then
       some (lineasListado st.carpetas_encontradas)
     else none)

/-! ## Concrete sample data -/

/-- Sample entry modified 01/01/2024. -/
def cEne : Carpeta := ⟨["r", "a"], "a", ⟨2024, 1, 1⟩⟩

/-- Sample entry modified 15/06/2024. -/
def cJun : Carpeta := ⟨["r", "b"], "b", ⟨2024, 6, 15⟩⟩

/-- Sample entry modified 15/03/2024. -/
def cMar15 : Carpeta := ⟨["r", "h"], "h", ⟨2024, 3, 15⟩⟩

/-- Sample entry modified 14/03/2024. -/
def cMar14 : Carpeta := ⟨["r", "y"], "y", ⟨2024, 3, 14⟩⟩

/-- `15/03/2024` written with Arabic-Indic digits (U+0660..U+0669):
`١٥/٠٣/٢٠٢٤`. -/
def fechaArabiga : List Char :=
  [Char.ofNat 1633, Char.ofNat 1637, '/', Char.ofNat 1632,
   Char.ofNat 1635, '/', Char.ofNat 1634, Char.ofNat 1632,
   Char.ofNat 1634, Char.ofNat 1636]

/-- Sample nested directory. -/
def nodoAnidado : Nodo := .carpeta "b" true (some ⟨2024, 2, 2⟩) []

/-- Sample direct child directory containing `nodoAnidado`. -/
def nodoHijo : Nodo := .carpeta "a" true (some ⟨2024, 1, 1⟩) [nodoAnidado]

/-! ## Helper lemmas: digits, newline stripping, renderings -/

/-- The base found for a digit character bounds it, so its value is a
single decimal digit. -/
theorem valorDigito_lt {c : Char} (h : esDigito c = true) :
    valorDigito c < 10 := by
  unfold esDigito at h
  obtain ⟨b, hb⟩ := Option.isSome_iff_exists.mp h
  have hpb := List.find?_some hb
  simp only [Bool.and_eq_true, decide_eq_true_eq] at hpb
  unfold valorDigito
  rw [hb]
  simp only
  omega

theorem esDigito_digitChar {k : Nat} (h : k < 10) :
    esDigito (Nat.digitChar k) = true := by
  revert h
  revert k
  decide

theorem valorDigito_digitChar {k : Nat} (h : k < 10) :
    valorDigito (Nat.digitChar k) = k := by
  revert h
  revert k
  decide

theorem esDigitoAscii_digitChar {k : Nat} (h : k < 10) :
    esDigitoAscii (Nat.digitChar k) = true := by
  revert h
  revert k
  decide

theorem digitChar_ne_newline {k : Nat} (h : k < 10) :
    (Nat.digitChar k == '\n') = false := by
  revert h
  revert k
  decide

/-- Every decimal-digit run starts at code point 48 or above, so no
decimal digit is the newline character. -/
theorem esDigito_no_salto {c : Char} (h : esDigito c = true) :
    (c == '\n') = false := by
  unfold esDigito at h
  obtain ⟨b, hb⟩ := Option.isSome_iff_exists.mp h
  have hpb := List.find?_some hb
  have hbmem := List.mem_of_find?_eq_some hb
  have h48 : ∀ x ∈ basesDigitos, 48 ≤ x := by decide
  have hb48 := h48 b hbmem
  simp only [Bool.and_eq_true, decide_eq_true_eq] at hpb
  rw [beq_eq_false_iff_ne]
  intro hcn
  subst hcn
  have h10 : Char.toNat '\n' = 10 := rfl
  omega

theorem sinSaltoFinal_append_newline (t : List Char) :
    sinSaltoFinal (t ++ ['\n']) = t := by
  simp [sinSaltoFinal]

theorem sinSaltoFinal_of_getLast_ne (s : List Char)
    (h : ∀ t, s ≠ t ++ ['\n']) : sinSaltoFinal s = s := by
  unfold sinSaltoFinal
  match hr : s.reverse with
  | [] => rfl
  | c :: resto =>
    have hs : s = resto.reverse ++ [c] := by
      have := congrArg List.reverse hr
      simpa using this
    by_cases hc : c = '\n'
    · exact absurd (hc ▸ hs) (h resto.reverse)
    · simp [hc]

/-- Stripping a trailing newline leaves a list ending in any other
character unchanged. -/
theorem sinSaltoFinal_concat_of_ne (l : List Char) (c : Char)
    (hc : (c == '\n') = false) : sinSaltoFinal (l ++ [c]) = l ++ [c] := by
  unfold sinSaltoFinal
  rw [show (l ++ [c]).reverse = c :: l.reverse by simp]
  simp [hc]

/-- `renderEstricto` ends in a digit, so stripping a trailing newline
leaves it unchanged. -/
theorem sinSaltoFinal_renderEstricto (f : Fecha) :
    sinSaltoFinal (renderEstricto f) = renderEstricto f := by
  apply sinSaltoFinal_of_getLast_ne
  intro t hEq
  have hLast : (renderEstricto f).getLast? = some '\n' := by
    rw [hEq]
    simp
  have : (renderEstricto f).getLast? = some (Nat.digitChar (f.year % 10)) := by
    simp [renderEstricto, dosDigitos, cuatroDigitos]
  rw [this] at hLast
  have h10 : f.year % 10 < 10 := Nat.mod_lt _ (by omega)
  have := digitChar_ne_newline h10
  simp at hLast
  rw [hLast] at this
  simp at this

/-- Case analysis used to undo `sinSaltoFinal`. -/
theorem sinSaltoFinal_cases (s : List Char) :
    (sinSaltoFinal s = s ∧ ∀ t, s ≠ t ++ ['\n']) ∨
      s = sinSaltoFinal s ++ ['\n'] := by
  by_cases h : ∃ t, s = t ++ ['\n']
  · obtain ⟨t, rfl⟩ := h
    right
    rw [sinSaltoFinal_append_newline]
  · left
    push_neg at h
    exact ⟨sinSaltoFinal_of_getLast_ne s h, h⟩

/-- Inversion of the ten-character pattern match: the input is a
slash-separated digit form whose digit values recompose the three
captured numbers. -/
theorem patronFecha_eq_some {t : List Char} {d m a : Nat}
    (h : patronFecha t = some (d, m, a)) :
    ∃ c1 c2 c3 c4 c5 c6 c7 c8 : Char,
      t = [c1, c2, '/', c3, c4, '/', c5, c6, c7, c8] ∧
      esDigito c1 = true ∧ esDigito c2 = true ∧ esDigito c3 = true ∧
      esDigito c4 = true ∧ esDigito c5 = true ∧ esDigito c6 = true ∧
      esDigito c7 = true ∧ esDigito c8 = true ∧
      d = valorDigito c1 * 10 + valorDigito c2 ∧
      m = valorDigito c3 * 10 + valorDigito c4 ∧
      a = ((valorDigito c5 * 10 + valorDigito c6) * 10 + valorDigito c7)
        * 10 + valorDigito c8 := by
  unfold patronFecha at h
  split at h
  case _ d1 d2 m1 m2 a1 a2 a3 a4 =>
    split at h
    case isTrue hdig =>
      simp only [Bool.and_eq_true] at hdig
      obtain ⟨⟨⟨⟨⟨⟨⟨h1, h2⟩, h3⟩, h4⟩, h5⟩, h6⟩, h7⟩, h8⟩ := hdig
      injection h with h
      injection h with hd h
      injection h with hm ha
      exact ⟨d1, d2, m1, m2, a1, a2, a3, a4, rfl, h1, h2, h3, h4, h5, h6,
        h7, h8, hd.symm, hm.symm, ha.symm⟩
    case isFalse => exact absurd h (by simp)
  case _ => exact absurd h (by simp)

/-- Evaluation of the pattern match on any slash-separated digit
form. -/
theorem patronFecha_forma {c1 c2 c3 c4 c5 c6 c7 c8 : Char}
    (h1 : esDigito c1 = true) (h2 : esDigito c2 = true)
    (h3 : esDigito c3 = true) (h4 : esDigito c4 = true)
    (h5 : esDigito c5 = true) (h6 : esDigito c6 = true)
    (h7 : esDigito c7 = true) (h8 : esDigito c8 = true) :
    patronFecha [c1, c2, '/', c3, c4, '/', c5, c6, c7, c8] =
      some (valorDigito c1 * 10 + valorDigito c2,
            valorDigito c3 * 10 + valorDigito c4,
            ((valorDigito c5 * 10 + valorDigito c6) * 10 + valorDigito c7)
              * 10 + valorDigito c8) := by
  simp only [patronFecha]
  rw [h1, h2, h3, h4, h5, h6, h7, h8]
  simp

/-- Day and month of a constructible date are below 100, so the strict
rendering is well-formed. -/
theorem ValidFecha_bounds {y m d : Nat} (h : ValidFecha y m d = true) :
    1 ≤ y ∧ y ≤ 9999 ∧ 1 ≤ m ∧ m ≤ 12 ∧ 1 ≤ d ∧ d ≤ 31 := by
  simp only [ValidFecha, Bool.and_eq_true, decide_eq_true_eq] at h
  obtain ⟨⟨⟨⟨⟨h1, h2⟩, h3⟩, h4⟩, h5⟩, h6⟩ := h
  have : diasEnMes y m ≤ 31 := by
    unfold diasEnMes
    split <;> [split; split] <;> omega
  omega

/-- Full characterisation of the strict parse: a date is returned
exactly for the slash-separated Unicode decimal-digit forms that
denote it, when it is constructible. -/
theorem fechaEstricta_eq_some (t : List Char) (f : Fecha) :
    fechaEstricta t = some f ↔
      ValidFecha f.year f.month f.day = true ∧ RepresentaFecha t f := by
  constructor
  · intro h
    unfold fechaEstricta at h
    cases hp : patronFecha t with
    | none => rw [hp] at h; exact absurd h (by simp)
    | some triple =>
      obtain ⟨d, m, a⟩ := triple
      rw [hp] at h
      simp only at h
      by_cases hv : ValidFecha a m d = true
      · rw [if_pos hv] at h
        injection h with h
        subst h
        obtain ⟨c1, c2, c3, c4, c5, c6, c7, c8, ht, h1, h2, h3, h4, h5,
          h6, h7, h8, hd, hm, ha⟩ := patronFecha_eq_some hp
        exact ⟨hv, c1, c2, c3, c4, c5, c6, c7, c8, ht, h1, h2, h3, h4,
          h5, h6, h7, h8, hd, hm, ha⟩
      · rw [if_neg hv] at h
        exact absurd h (by simp)
  · rintro ⟨hv, c1, c2, c3, c4, c5, c6, c7, c8, rfl, h1, h2, h3, h4, h5,
      h6, h7, h8, hd, hm, ha⟩
    unfold fechaEstricta
    rw [patronFecha_forma h1 h2 h3 h4 h5 h6 h7 h8]
    simp only [← hd, ← hm, ← ha]
    rw [if_pos hv]

/-- The strict ASCII rendering of a constructible date is one of its
accepted digit forms. -/
theorem representa_renderEstricto {f : Fecha}
    (hv : ValidFecha f.year f.month f.day = true) :
    RepresentaFecha (renderEstricto f) f := by
  obtain ⟨h1, h2, h3, h4, h5, h6⟩ := ValidFecha_bounds hv
  refine ⟨Nat.digitChar (f.day / 10), Nat.digitChar (f.day % 10),
    Nat.digitChar (f.month / 10), Nat.digitChar (f.month % 10),
    Nat.digitChar (f.year / 1000 % 10), Nat.digitChar (f.year / 100 % 10),
    Nat.digitChar (f.year / 10 % 10), Nat.digitChar (f.year % 10),
    rfl,
    esDigito_digitChar (by omega), esDigito_digitChar (by omega),
    esDigito_digitChar (by omega), esDigito_digitChar (by omega),
    esDigito_digitChar (by omega), esDigito_digitChar (by omega),
    esDigito_digitChar (by omega), esDigito_digitChar (by omega),
    ?_, ?_, ?_⟩
  · rw [valorDigito_digitChar (by omega), valorDigito_digitChar (by omega)]
    omega
  · rw [valorDigito_digitChar (by omega), valorDigito_digitChar (by omega)]
    omega
  · rw [valorDigito_digitChar (by omega), valorDigito_digitChar (by omega),
      valorDigito_digitChar (by omega), valorDigito_digitChar (by omega)]
    omega

/-- The source parser accepts exactly the decimal-digit forms of
constructible dates, with one trailing newline tolerated. -/
theorem validar_fecha_eq_some (s : List Char) (f : Fecha) :
    validar_fecha s = some f ↔
      ValidFecha f.year f.month f.day = true ∧
        ∃ t, (s = t ∨ s = t ++ ['\n']) ∧ RepresentaFecha t f := by
  unfold validar_fecha
  rw [fechaEstricta_eq_some]
  constructor
  · rintro ⟨hv, hrep⟩
    refine ⟨hv, sinSaltoFinal s, ?_, hrep⟩
    rcases sinSaltoFinal_cases s with ⟨heq, -⟩ | heq
    · exact Or.inl heq.symm
    · exact Or.inr heq
  · rintro ⟨hv, t, hst, hrep⟩
    have hlast : sinSaltoFinal s = t := by
      rcases hst with rfl | rfl
      · obtain ⟨c1, c2, c3, c4, c5, c6, c7, c8, hts, h1, h2, h3, h4, h5,
          h6, h7, h8, -⟩ := hrep
        rw [hts]
        exact sinSaltoFinal_concat_of_ne
          [c1, c2, '/', c3, c4, '/', c5, c6, c7] c8 (esDigito_no_salto h8)
      · exact sinSaltoFinal_append_newline t
    rw [hlast]
    exact ⟨hv, hrep⟩

/-- The fuel of `digitosNatAux` is irrelevant once it exceeds `n`. -/
theorem digitosNatAux_fuel :
    ∀ (n fuel1 fuel2 : Nat), n < fuel1 → n < fuel2 →
      digitosNatAux fuel1 n = digitosNatAux fuel2 n := by
  intro n
  induction n using Nat.strong_induction_on with
  | _ n ih =>
    intro fuel1 fuel2 h1 h2
    match fuel1, fuel2 with
    | f1 + 1, f2 + 1 =>
      simp only [digitosNatAux]
      by_cases h10 : n < 10
      · simp [h10]
      · have hdiv : n / 10 < n := Nat.div_lt_self (by omega) (by omega)
        simp only [h10, if_false]
        rw [ih (n / 10) hdiv (f1) (f2) (by omega) (by omega)]

/-- Unfolding rule of `digitosNat`. -/
theorem digitosNat_unfold (n : Nat) :
    digitosNat n =
      if n < 10 then [Nat.digitChar n]
      else digitosNat (n / 10) ++ [Nat.digitChar (n % 10)] := by
  by_cases h : n < 10
  · simp [digitosNat, digitosNatAux, h]
  · have hdiv : n / 10 < n := Nat.div_lt_self (by omega) (by omega)
    rw [if_neg h]
    show digitosNatAux (n + 1) n = digitosNatAux (n / 10 + 1) (n / 10) ++ _
    conv_lhs => rw [digitosNatAux]
    rw [if_neg h]
    rw [digitosNatAux_fuel (n / 10) n (n / 10 + 1) (by omega) (by omega)]

/-- For four-digit years the unpadded `%Y` rendering coincides with the
zero-padded four-digit rendering. -/
theorem digitosNat_cuatro {y : Nat} (h1 : 1000 ≤ y) (h2 : y ≤ 9999) :
    digitosNat y = cuatroDigitos y := by
  have e1 : digitosNat y = digitosNat (y / 10) ++ [Nat.digitChar (y % 10)] := by
    rw [digitosNat_unfold]
    simp [show ¬ y < 10 by omega]
  have d21 : y / 10 / 10 = y / 100 := by omega
  have e2 : digitosNat (y / 10) =
      digitosNat (y / 100) ++ [Nat.digitChar (y / 10 % 10)] := by
    rw [digitosNat_unfold]
    simp [show ¬ y / 10 < 10 by omega, d21]
  have d32 : y / 100 / 10 = y / 1000 := by omega
  have e3 : digitosNat (y / 100) =
      digitosNat (y / 1000) ++ [Nat.digitChar (y / 100 % 10)] := by
    rw [digitosNat_unfold]
    simp [show ¬ y / 100 < 10 by omega, d32]
  have e4 : digitosNat (y / 1000) = [Nat.digitChar (y / 1000)] := by
    rw [digitosNat_unfold]
    simp [show y / 1000 < 10 by omega]
  have emod : y / 1000 % 10 = y / 1000 := Nat.mod_eq_of_lt (by omega)
  rw [e1, e2, e3, e4]
  simp [cuatroDigitos, emod]

/-- For four-digit years the display rendering is the strict one. -/
theorem renderFecha_eq_estricto {f : Fecha} (h1 : 1000 ≤ f.year)
    (h2 : f.year ≤ 9999) : renderFecha f = renderEstricto f := by
  unfold renderFecha renderEstricto
  rw [digitosNat_cuatro h1 h2]

/-! ## Helper lemmas: date order, filters, prompts -/

/-- Transitivity of the Python date order. -/
theorem Fecha.le_trans_bool (a b c : Fecha) (hab : Fecha.le a b = true)
    (hbc : Fecha.le b c = true) : Fecha.le a c = true := by
  simp only [Fecha.le, Bool.or_eq_true, Bool.and_eq_true,
    decide_eq_true_eq, beq_iff_eq] at *
  omega

/-- Totality of the Python date order. -/
theorem Fecha.le_total_bool (a b : Fecha) :
    (Fecha.le a b || Fecha.le b a) = true := by
  simp only [Fecha.le, Bool.or_eq_true, Bool.and_eq_true,
    decide_eq_true_eq, beq_iff_eq]
  omega

/-- The day-count prompt loop only ever accepts a positive count. -/
theorem leerDias_pos :
    ∀ (entradas : List (Option Int)) (n : Int),
      leerDias entradas = some n → 0 < n := by
  intro entradas
  induction entradas with
  | nil => intro n h; simp [leerDias] at h
  | cons e resto ih =>
    intro n h
    unfold leerDias at h ih
    rw [List.findSome?_cons] at h
    cases e with
    | none => exact ih n h
    | some k =>
      simp only at h
      by_cases hk : 0 < k
      · rw [if_pos hk] at h
        injection h with h
        omega
      · rw [if_neg hk] at h
        exact ih n h

/-- Membership in the shallow collection. -/
theorem nivelDirecto_mem (ruta : List String) (hijos : List Nodo)
    (e : Carpeta) :
    e ∈ nivelDirecto ruta hijos ↔
      ∃ n l f hs, Nodo.carpeta n l (some f) hs ∈ hijos ∧
        e = ⟨ruta ++ [n], n, f⟩ := by
  unfold nivelDirecto
  rw [List.mem_filterMap]
  constructor
  · rintro ⟨x, hx, hfx⟩
    cases x with
    | archivo n => simp [entradaDirecta] at hfx
    | carpeta n l m hs =>
      cases m with
      | none => simp [entradaDirecta] at hfx
      | some f =>
        refine ⟨n, l, f, hs, hx, ?_⟩
        have hfx' : some (Carpeta.mk (ruta ++ [n]) n f) = some e := hfx
        injection hfx' with h
        exact h.symm
  · rintro ⟨n, l, f, hs, hmem, rfl⟩
    exact ⟨_, hmem, by simp [entradaDirecta]⟩

/-! ## Claims -/

/-- C1, counterexample: after an earlier query stored a non-empty
result, a query with an empty filtered result shows the no-matches
message (`mostrar_resultados` returns `none` and leaves the session
unchanged), yet the save step still asks the save prompt and, on an
affirmative answer, writes a file — it is not skipped. -/
theorem guardar_pregunta_tras_vacio :
    (mostrar_resultados ⟨["r"], [cEne]⟩ []).2 = none ∧
    (guardar_resultados (mostrar_resultados ⟨["r"], [cEne]⟩ []).1 ['s']).1 =
      true ∧
    (guardar_resultados (mostrar_resultados ⟨["r"], [cEne]⟩ []).1 ['s']).2 ≠
      none := by
  decide

/-- C1, amended: on an empty filtered result the no-matches message is
shown and the stored results are left unchanged; the save prompt is
asked exactly when the stored results (from the last non-empty display
of the session) are non-empty — so it is skipped in a session with no
earlier non-empty result, but not otherwise. -/
theorem guardado_segun_estado (st : Sesion) (filtradas : List Carpeta)
    (respuesta : List Char) :
    (filtradas = [] → mostrar_resultados st filtradas = (st, none)) ∧
    ((guardar_resultados st respuesta).1 = true ↔
      st.carpetas_encontradas ≠ []) := by
  constructor
  · rintro rfl
    rfl
  · by_cases h : st.carpetas_encontradas = []
    · simp [guardar_resultados, h]
    · simp [guardar_resultados, List.isEmpty_iff, h]

/-- Witness for `guardado_segun_estado`. -/
theorem guardado_segun_estado_witness :
    mostrar_resultados ⟨[], []⟩ [] = (⟨[], []⟩, none) ∧
    (guardar_resultados ⟨[], []⟩ ['s']).1 ≠ true :=
  ⟨(guardado_segun_estado ⟨[], []⟩ [] ['s']).1 rfl,
   fun h => (guardado_segun_estado ⟨[], []⟩ [] ['s']).2.mp h rfl⟩

/-- C2: when a permission error is raised on the root path itself —
which happens exactly in shallow mode, where `os.scandir` on an
unlistable root raises before anything is collected (in recursive mode
`os.walk` swallows the error with `onerror=None` and raises nothing) —
the traversal is aborted with a message and the returned collection is
empty: nothing collected survives, there is no partial-results
recovery. -/
theorem buscar_raiz_sin_permisos (ruta : List String) (hijos : List Nodo) :
    buscar_carpetas ruta false hijos false = ([], true) := rfl

/-- C3, counterexample: the claim's "for every string violating the
pattern it signals invalid input" fails — `"01/01/2024\n"` does not
match the strict ten-character dd/mm/yyyy pattern, yet the parser
returns the date, because the regex `$` anchor also matches just
before a trailing newline. -/
theorem validar_acepta_salto_de_linea :
    validar_fecha ("01/01/2024\n".data) = some ⟨2024, 1, 1⟩ ∧
    cumplePatronEstricto ("01/01/2024\n".data) = false := by
  decide

/-- C3, amended: the parser returns a date exactly for the
ten-character `dd/mm/yyyy` forms over Unicode decimal digits (the
`str` pattern's `\d` without `re.ASCII`, whose digit values `int()`
reads) that denote a real calendar date — with one trailing newline
additionally tolerated (regex `$` semantics).  The strict ASCII
rendering is one such form and satisfies the spec's strict pattern. -/
theorem validar_fecha_caracterizacion (s : List Char) (f : Fecha) :
    (validar_fecha s = some f ↔
      ValidFecha f.year f.month f.day = true ∧
        ∃ t, (s = t ∨ s = t ++ ['\n']) ∧ RepresentaFecha t f) ∧
    (ValidFecha f.year f.month f.day = true →
      RepresentaFecha (renderEstricto f) f) ∧
    (ValidFecha f.year f.month f.day = true →
      cumplePatronEstricto (renderEstricto f) = true) := by
  refine ⟨validar_fecha_eq_some s f,
    fun hv => representa_renderEstricto hv, fun hv => ?_⟩
  obtain ⟨h1, h2, h3, h4, h5, h6⟩ := ValidFecha_bounds hv
  simp only [renderEstricto, dosDigitos, cuatroDigitos, cumplePatronEstricto,
    List.cons_append, List.nil_append, List.getD, List.get?, List.length,
    Option.getD_some]
  rw [esDigitoAscii_digitChar (show f.day / 10 < 10 by omega),
    esDigitoAscii_digitChar (show f.day % 10 < 10 by omega),
    esDigitoAscii_digitChar (show f.month / 10 < 10 by omega),
    esDigitoAscii_digitChar (show f.month % 10 < 10 by omega),
    esDigitoAscii_digitChar (show f.year / 1000 % 10 < 10 by omega),
    esDigitoAscii_digitChar (show f.year / 100 % 10 < 10 by omega),
    esDigitoAscii_digitChar (show f.year / 10 % 10 < 10 by omega),
    esDigitoAscii_digitChar (show f.year % 10 < 10 by omega)]
  simp

/-- Witness for `validar_fecha_caracterizacion`: the ASCII rendering
is accepted, and so is the same date written with Arabic-Indic
digits. -/
theorem validar_fecha_caracterizacion_witness :
    ValidFecha 2024 1 1 = true ∧
    cumplePatronEstricto (renderEstricto ⟨2024, 1, 1⟩) = true ∧
    validar_fecha ("01/01/2024".data) = some ⟨2024, 1, 1⟩ ∧
    validar_fecha fechaArabiga = some ⟨2024, 3, 15⟩ :=
  ⟨by decide,
   (validar_fecha_caracterizacion [] ⟨2024, 1, 1⟩).2.2 (by decide),
   (validar_fecha_caracterizacion ("01/01/2024".data) ⟨2024, 1, 1⟩).1.mpr
     ⟨by decide, "01/01/2024".data, Or.inl rfl,
      ⟨'0', '1', '0', '1', '2', '0', '2', '4', by decide⟩⟩,
   (validar_fecha_caracterizacion fechaArabiga ⟨2024, 3, 15⟩).1.mpr
     ⟨by decide, fechaArabiga, Or.inl rfl,
      ⟨Char.ofNat 1633, Char.ofNat 1637, Char.ofNat 1632, Char.ofNat 1635,
       Char.ofNat 1634, Char.ofNat 1632, Char.ofNat 1634, Char.ofNat 1636,
       by decide⟩⟩⟩

/-- C4: a date-range filter whose start is strictly after its end
yields the empty list with the error flag, independently of the
entries (none is evaluated); when start ≤ end, an entry is kept
exactly when its modification date lies in the inclusive range. -/
theorem filtrar_rango_invertido (carpetas : List Carpeta)
    (inicio fin : Fecha) (c : Carpeta) :
    (Fecha.lt fin inicio = true →
      filtrar_por_opcion carpetas (.rango inicio fin) = ([], true)) ∧
    (Fecha.lt fin inicio = false →
      (filtrar_por_opcion carpetas (.rango inicio fin)).2 = false ∧
      (c ∈ (filtrar_por_opcion carpetas (.rango inicio fin)).1 ↔
        c ∈ carpetas ∧ Fecha.le inicio c.fecha_modificacion = true ∧
          Fecha.le c.fecha_modificacion fin = true)) := by
  constructor
  · intro h
    simp [filtrar_por_opcion, h]
  · intro h
    simp [filtrar_por_opcion, h, List.mem_filter]

/-- Witness for `filtrar_rango_invertido`. -/
theorem filtrar_rango_invertido_witness :
    Fecha.lt ⟨2024, 1, 1⟩ ⟨2024, 5, 1⟩ = true ∧
    filtrar_por_opcion [cEne] (.rango ⟨2024, 5, 1⟩ ⟨2024, 1, 1⟩) =
      ([], true) ∧
    cJun ∈ (filtrar_por_opcion [cJun] (.rango ⟨2024, 1, 1⟩ ⟨2024, 12, 31⟩)).1 :=
  ⟨by decide,
   (filtrar_rango_invertido [cEne] ⟨2024, 5, 1⟩ ⟨2024, 1, 1⟩ cEne).1
     (by decide),
   ((filtrar_rango_invertido [cJun] ⟨2024, 1, 1⟩ ⟨2024, 12, 31⟩ cJun).2
       (by decide)).2.mpr (by decide)⟩

/-- C5: the day-count prompt only ever accepts a positive integer,
skipping non-numeric (`none`) and non-positive answers; with a valid
count, an entry is kept exactly when its modification date is on or
after `today - timedelta(days=N)` (the in-range hypothesis excludes
the `OverflowError` of an out-of-range subtraction). -/
theorem ultimos_dias_caracterizacion (entradas : List (Option Int))
    (n : Int) (malo : Option Int) (carpetas : List Carpeta) (hoy : Fecha)
    (dias : Nat) (c : Carpeta) :
    (leerDias entradas = some n → 0 < n) ∧
    (malo = none ∨ (∃ k, malo = some k ∧ k ≤ 0) →
      leerDias (malo :: entradas) = leerDias entradas) ∧
    (0 < dias → dias < hoy.toOrdinal →
      (c ∈ (filtrar_por_opcion carpetas (.ultimos hoy dias)).1 ↔
        c ∈ carpetas ∧
          Fecha.le (hoy.restarDias dias) c.fecha_modificacion = true)) := by
  refine ⟨leerDias_pos entradas n, ?_, ?_⟩
  · rintro (rfl | ⟨k, rfl, hk⟩)
    · simp [leerDias, List.findSome?_cons]
    · simp [leerDias, List.findSome?_cons, show ¬ (0 : Int) < k by omega]
  · intro _ _
    simp [filtrar_por_opcion, List.mem_filter]

/-- Witness for `ultimos_dias_caracterizacion`: with N = 1 and today
15/03/2024, entries modified today and yesterday are both kept. -/
theorem ultimos_dias_caracterizacion_witness :
    cMar15 ∈
      (filtrar_por_opcion [cMar15, cMar14]
        (.ultimos ⟨2024, 3, 15⟩ 1)).1 ∧
    cMar14 ∈
      (filtrar_por_opcion [cMar15, cMar14]
        (.ultimos ⟨2024, 3, 15⟩ 1)).1 ∧
    leerDias [some 0, none, some (-2), some 1] = some 1 :=
  ⟨((ultimos_dias_caracterizacion [] 1 none [cMar15, cMar14] ⟨2024, 3, 15⟩ 1
        cMar15).2.2 (by decide) (by decide)).mpr (by decide),
   ((ultimos_dias_caracterizacion [] 1 none [cMar15, cMar14] ⟨2024, 3, 15⟩ 1
        cMar14).2.2 (by decide) (by decide)).mpr (by decide),
   by decide⟩

/-- C6: for a non-empty filtered set, both the on-screen listing and
the report listing are an ordering of the filtered entries that is
non-decreasing in modification date, numbered from 1, each line
`{i:3d}. [dd/mm/yyyy] path`. -/
theorem listado_ordenado (filtradas : List Carpeta) (st : Sesion)
    (h : filtradas ≠ []) :
    ∃ orden : List Carpeta,
      orden.Perm filtradas ∧
      orden.Pairwise
        (fun a b => Fecha.le a.fecha_modificacion b.fecha_modificacion =
          true) ∧
      (mostrar_resultados st filtradas).2 =
        some (orden.enum.map fun p => fmtLinea (p.1 + 1) p.2) ∧
      (guardar_resultados (mostrar_resultados st filtradas).1 ['s']).2 =
        some (orden.enum.map fun p => fmtLinea (p.1 + 1) p.2) := by
  have hmem : normalizar ['s'] ∈ respuestasAfirmativas := by decide
  refine ⟨ordenarPorFecha filtradas, List.mergeSort_perm filtradas _, ?_,
    ?_, ?_⟩
  · unfold ordenarPorFecha
    exact @List.sorted_mergeSort Carpeta
      (fun a b => Fecha.le a.fecha_modificacion b.fecha_modificacion)
      (fun a b c hab hbc => Fecha.le_trans_bool _ _ _ hab hbc)
      (fun a b => Fecha.le_total_bool _ _) filtradas
  · simp [mostrar_resultados, List.isEmpty_iff, h, lineasListado]
  · simp [mostrar_resultados, guardar_resultados, List.isEmpty_iff, h,
      hmem, lineasListado]

/-- Witness for `listado_ordenado`. -/
theorem listado_ordenado_witness :
    ([cJun, cEne] : List Carpeta) ≠ [] ∧
    (∃ orden : List Carpeta,
      orden.Perm [cJun, cEne] ∧
      orden.Pairwise
        (fun a b => Fecha.le a.fecha_modificacion b.fecha_modificacion =
          true) ∧
      (mostrar_resultados ⟨["r"], []⟩ [cJun, cEne]).2 =
        some (orden.enum.map fun p => fmtLinea (p.1 + 1) p.2) ∧
      (guardar_resultados (mostrar_resultados ⟨["r"], []⟩
          [cJun, cEne]).1 ['s']).2 =
        some (orden.enum.map fun p => fmtLinea (p.1 + 1) p.2)) :=
  ⟨by decide, listado_ordenado [cJun, cEne] ⟨["r"], []⟩ (by decide)⟩

/-- C7: shallow traversal on a listable root collects exactly the
immediate child directories whose modification time is readable — each
collected entry is one path component below the root, so nothing
nested deeper is ever collected — and never aborts. -/
theorem buscar_superficial_exacto (ruta : List String) (hijos : List Nodo)
    (e : Carpeta) :
    (e ∈ (buscar_carpetas ruta true hijos false).1 ↔
      ∃ n l f hs, Nodo.carpeta n l (some f) hs ∈ hijos ∧
        e = ⟨ruta ++ [n], n, f⟩) ∧
    (e ∈ (buscar_carpetas ruta true hijos false).1 →
      e.ruta.length = ruta.length + 1) ∧
    (buscar_carpetas ruta true hijos false).2 = false := by
  have hb : (buscar_carpetas ruta true hijos false).1 =
      nivelDirecto ruta hijos := rfl
  rw [hb]
  refine ⟨nivelDirecto_mem ruta hijos e, fun hmem => ?_, rfl⟩
  obtain ⟨n, l, f, hs, -, rfl⟩ := (nivelDirecto_mem ruta hijos e).mp hmem
  simp

/-- Witness for `buscar_superficial_exacto`: the direct child is
collected, at depth exactly one below the root; its nested
subdirectory is not among the results. -/
theorem buscar_superficial_exacto_witness :
    (⟨["root", "a"], "a", ⟨2024, 1, 1⟩⟩ : Carpeta) ∈
      (buscar_carpetas ["root"] true [nodoHijo] false).1 ∧
    (⟨["root", "a"], "a", ⟨2024, 1, 1⟩⟩ : Carpeta).ruta.length =
      (["root"] : List String).length + 1 ∧
    (buscar_carpetas ["root"] true [nodoHijo] false).1 =
      [⟨["root", "a"], "a", ⟨2024, 1, 1⟩⟩] := by
  have hmem : (⟨["root", "a"], "a", ⟨2024, 1, 1⟩⟩ : Carpeta) ∈
      (buscar_carpetas ["root"] true [nodoHijo] false).1 :=
    (buscar_superficial_exacto ["root"] [nodoHijo] _).1.mpr
      ⟨"a", true, ⟨2024, 1, 1⟩, [nodoAnidado], List.mem_singleton.mpr rfl,
        rfl⟩
  exact ⟨hmem, (buscar_superficial_exacto ["root"] [nodoHijo] _).2.1 hmem,
    by decide⟩

/-- C8, counterexample: the answer `x` is neither blank nor one of the
affirmative tokens, yet it selects recursive traversal — the code only
treats `n` / `no` as negative. -/
theorem respuesta_x_recursiva :
    preguntar_incluir_subcarpetas ['x'] = true ∧
    ¬ respuestaAfirmativaSpec ['x'] := by
  constructor
  · decide
  · intro h
    rcases h with h | h <;> revert h <;> decide

/-- C8, amended: recursive traversal is chosen exactly when the
stripped, lowercased answer differs from both negative tokens `n` and
`no`; in particular the blank default and the affirmative tokens
select recursion, but so does every other answer. -/
theorem recursion_salvo_negativas (respuesta : List Char) :
    (preguntar_incluir_subcarpetas respuesta = true ↔
      normalizar respuesta ≠ ['n'] ∧ normalizar respuesta ≠ ['n', 'o']) ∧
    (respuestaAfirmativaSpec respuesta →
      preguntar_incluir_subcarpetas respuesta = true) := by
  constructor
  · simp [preguntar_incluir_subcarpetas]
  · intro h
    simp only [respuestaAfirmativaSpec, respuestasAfirmativas,
      List.mem_cons, List.not_mem_nil, or_false] at h
    simp only [preguntar_incluir_subcarpetas, Bool.and_eq_true,
      Bool.not_eq_true', beq_eq_false_iff_ne, ne_eq]
    rcases h with h | h | h | h | h | h <;> rw [h] <;>
      exact ⟨by decide, by decide⟩

/-- Witness for `recursion_salvo_negativas`. -/
theorem recursion_salvo_negativas_witness :
    respuestaAfirmativaSpec [] ∧
    preguntar_incluir_subcarpetas [] = true :=
  ⟨Or.inl rfl, (recursion_salvo_negativas []).2 (Or.inl rfl)⟩

/-- C9: whatever the option and its parameters, the filtered result is
a sublist of the input entries: every kept record occurs in the input
unchanged, in the input's relative order, with no creation or
duplication. -/
theorem filtrado_es_sublista (carpetas : List Carpeta) (o : Opcion) :
    (filtrar_por_opcion carpetas o).1.Sublist carpetas := by
  cases o with
  | despues ref => exact List.filter_sublist _
  | antes ref => exact List.filter_sublist _
  | en ref => exact List.filter_sublist _
  | rango inicio fin =>
    by_cases h : Fecha.lt fin inicio = true
    · simp [filtrar_por_opcion, h]
    · simp [filtrar_por_opcion, h]
  | ultimos hoy dias => exact List.filter_sublist _

/-- C10: parsing the `%d/%m/%Y` rendering of any constructible date
with a four-digit year returns the same date. -/
theorem render_parse_ida_vuelta (f : Fecha)
    (hv : ValidFecha f.year f.month f.day = true) (hy : 1000 ≤ f.year) :
    validar_fecha (renderFecha f) = some f := by
  have h9999 : f.year ≤ 9999 := (ValidFecha_bounds hv).2.1
  rw [renderFecha_eq_estricto hy h9999]
  unfold validar_fecha
  rw [sinSaltoFinal_renderEstricto]
  exact (fechaEstricta_eq_some _ f).mpr ⟨hv, representa_renderEstricto hv⟩

/-- Witness for `render_parse_ida_vuelta`. -/
theorem render_parse_ida_vuelta_witness :
    ValidFecha 2024 3 15 = true ∧ 1000 ≤ 2024 ∧
    validar_fecha (renderFecha ⟨2024, 3, 15⟩) = some ⟨2024, 3, 15⟩ :=
  ⟨by decide, by decide,
   render_parse_ida_vuelta ⟨2024, 3, 15⟩ (by decide) (by decide)⟩

end Filtro
